import Mathlib

/-!
Shallow embedding of the asana-go repository's in-repo logic:

* the `Date` JSON codec (`Date.MarshalJSON` / `Date.UnmarshalJSON`,
  `src/unnamed/part_000`), built on Go's `time.Format` / `time.Parse`
  with the fixed layout `2006-01-02` and `encoding/json` string
  (un)marshalling, and

* the four listing helpers (`ListWorkspaces`, `ListProjects`,
  `ListTasks`, `ListSections`, `src/util/list.go`), which issue one
  paginated list call, discard the continuation token, and print one
  formatted line per result.

Go machine integers that matter here (years, months, days) stay far
from any overflow boundary, so they are embedded as `Int`/`Nat`.
-/

namespace AsanaGo

/-! ## Decimal digit helpers (Go `time` package formatting) -/

/-- `true` iff `c` is an ASCII decimal digit; mirrors the Go `time`
package's byte test `'0' <= c && c <= '9'`. -/
def isDigitCh (c : Char) : Bool := 48 ≤ c.toNat && c.toNat ≤ 57

/-- Numeric value of an ASCII digit character, as Go's `c - '0'`. -/
def digitVal (c : Char) : Nat := c.toNat - 48

/-- Go `time.appendInt(b, x, width)`: decimal representation of `x`,
zero-padded on the left to `width`, with a leading `-` for negative
values.  The Go source special-cases widths 2 and 4 (the common time
fields) with direct digit formulas; the general branch prints all
digits left-padded. -/
def goAppendInt (x : Int) (width : Nat) : List Char :=
  let sign : List Char := if x < 0 then ['-'] else []
  let u : Nat := x.natAbs
  if width = 2 ∧ u < 100 then
    sign ++ [Nat.digitChar (u / 10), Nat.digitChar (u % 10)]
  else if width = 4 ∧ u < 10000 then
    sign ++ [Nat.digitChar (u / 1000), Nat.digitChar (u / 100 % 10),
             Nat.digitChar (u / 10 % 10), Nat.digitChar (u % 10)]
  else
    let ds := Nat.toDigits 10 u
    sign ++ (List.replicate (width - ds.length) '0' ++ ds)

/-! ## The Date value type

Go's `asana.Date` wraps `time.Time`.  The layout `2006-01-02` touches
only the calendar fields, so the embedding keeps the wall-clock
calendar fields plus the time-of-day remainder (nanoseconds since
midnight); `time.Parse` with this layout always yields midnight UTC,
i.e. `todNanos = 0`. -/

structure Date where
  year : Int
  month : Nat
  day : Nat
  /-- Nanoseconds since midnight: the time-of-day part of the wrapped
  `time.Time`, which the date layout neither prints nor parses. -/
  todNanos : Nat
  deriving DecidableEq, Repr

/-- `time.Time.Format "2006-01-02"`: the wall-clock calendar fields
rendered through Go's `appendInt` with widths 4, 2, 2. -/
def dateFormat (d : Date) : List Char :=
  goAppendInt d.year 4 ++ '-' :: goAppendInt (d.month : Int) 2
    ++ '-' :: goAppendInt (d.day : Int) 2

/-! ## encoding/json string marshalling -/

/-- `encoding/json`'s escaping of one character inside a marshalled
string: `"` and `\` are backslash-escaped, `\n`/`\r`/`\t` get short
escapes, other control characters become `\u00XX`, and (with the
default HTML-safe encoder) `<`, `>`, `&` become `<`, `>`,
`&`; everything else is copied verbatim. -/
def jsonEscapeChar (c : Char) : List Char :=
  if c == '"' then ['\\', '"']
  else if c == '\\' then ['\\', '\\']
  else if c == '\n' then ['\\', 'n']
  else if c == '\r' then ['\\', 'r']
  else if c == '\t' then ['\\', 't']
  else if c.toNat < 32 then
    ['\\', 'u', '0', '0', Nat.digitChar (c.toNat / 16), Nat.digitChar (c.toNat % 16)]
  else if c == '<' then ['\\', 'u', '0', '0', '3', 'c']
  else if c == '>' then ['\\', 'u', '0', '0', '3', 'e']
  else if c == '&' then ['\\', 'u', '0', '0', '2', '6']
  else [c]

/-- `json.Marshal` applied to a Go `string`: a double-quoted JSON
string literal.  For `string` arguments this never returns an error. -/
def jsonMarshalString (cs : List Char) : List Char :=
  '"' :: (cs.map jsonEscapeChar).flatten ++ ['"']

/-- `Date.MarshalJSON`: format the wrapped time with the layout
`2006-01-02` and marshal the resulting string.  The returned bytes are
embedded as a `List Char`; the error result of the Go signature is the
`Except` error channel, which this path never takes because
`json.Marshal` of a `string` cannot fail. -/
def dateMarshalJSON (d : Date) : Except String (List Char) :=
  Except.ok (jsonMarshalString (dateFormat d))

/-! ## encoding/json string unmarshalling -/

/-- A decoded JSON value, as `encoding/json` classifies the input bytes
handed to `Date.UnmarshalJSON`. -/
inductive JsonValue where
  | str (s : String)
  | num (n : Int)
  | bool (b : Bool)
  | null
  | arr (elems : List JsonValue)
  | obj (fields : List (String × JsonValue))
  deriving Repr

/-- `json.Unmarshal(value, &s)` for `s : string`: succeeds exactly when
the JSON value is a string, otherwise reports an unmarshal type
error. -/
def jsonUnmarshalString : JsonValue → Except String String
  | JsonValue.str s => Except.ok s
  | JsonValue.num _ => Except.error "json: cannot unmarshal number into Go value of type string"
  | JsonValue.bool _ => Except.error "json: cannot unmarshal bool into Go value of type string"
  | JsonValue.null => Except.error "json: cannot unmarshal null into Go value of type string"
  | JsonValue.arr _ => Except.error "json: cannot unmarshal array into Go value of type string"
  | JsonValue.obj _ => Except.error "json: cannot unmarshal object into Go value of type string"

/-! ## time.Parse with layout "2006-01-02" -/

/-- Go `time` parsing of a fixed-width run of decimal digits
(`stdLongYear` takes exactly 4, `stdZeroMonth`/`stdZeroDay` exactly 2):
fails unless the next `width` characters are all digits. -/
def getnumFixed : Nat → Nat → List Char → Option (Nat × List Char)
  | 0, acc, cs => some (acc, cs)
  | width + 1, acc, cs =>
    match cs with
    | [] => none
    | c :: rest =>
      if isDigitCh c then getnumFixed width (acc * 10 + digitVal c) rest
      else none

/-- Go `time.isLeap`. -/
def isLeap (year : Nat) : Bool := year % 4 == 0 && (year % 100 != 0 || year % 400 == 0)

/-- Go `time.daysIn(m, year)`: the length of month `m` (1–12) in
`year`. -/
def daysIn (month year : Nat) : Nat :=
  if month == 2 then (if isLeap year then 29 else 28)
  else if month == 4 || month == 6 || month == 9 || month == 11 then 30
  else 31

/-- `time.Parse "2006-01-02" s`: four year digits, a dash, two month
digits, a dash, two day digits, end of input; then the range checks Go
performs (month 1–12, day 1 to the month's length).  Success yields
midnight UTC on that date. -/
def timeParseDate (s : String) : Except String Date :=
  match getnumFixed 4 0 s.data with
  | none => Except.error "parsing time: cannot parse year"
  | some (year, rest1) =>
    match rest1 with
    | '-' :: rest2 =>
      match getnumFixed 2 0 rest2 with
      | none => Except.error "parsing time: cannot parse month"
      | some (month, rest3) =>
        match rest3 with
        | '-' :: rest4 =>
          match getnumFixed 2 0 rest4 with
          | none => Except.error "parsing time: cannot parse day"
          | some (day, rest5) =>
            if rest5 ≠ [] then Except.error "parsing time: extra text"
            else if month < 1 || month > 12 then Except.error "parsing time: month out of range"
            else if day < 1 || day > daysIn month year then Except.error "parsing time: day out of range"
            else Except.ok ⟨Int.ofNat year, month, day, 0⟩
        | _ => Except.error "parsing time: cannot parse layout"
    | _ => Except.error "parsing time: cannot parse layout"

/-- `Date.UnmarshalJSON`: unmarshal the JSON value into a string, parse
it with the date layout, and only then assign the receiver.  The Go
method mutates `*d`; the embedding passes the receiver state
explicitly and returns the updated receiver together with the returned
error. -/
def dateUnmarshalJSON (d : Date) (value : JsonValue) : Date × Option String :=
  match jsonUnmarshalString value with
  | Except.error e => (d, some e)
  | Except.ok dateString =>
    match timeParseDate dateString with
    | Except.error e => (d, some e)
    | Except.ok t => (t, none)

/-! ## Listing helpers (src/util/list.go)

The entity structs (`asana.Workspace`, `asana.Project`, `asana.Task`,
`asana.Section`) and the client's list methods live in parts of the
repository outside `src/`; they are modelled from the spec below.
Each helper performs exactly one list call against the client; the
embedding takes the outcome of that single call — either an error or
the pair (result sequence, continuation token) — as input, and returns
the list of lines printed to standard output (each `fmt.Printf` ends
in `\n`, so lines are kept without the trailing newline) together with
the helper's returned error. -/

/-- Modelled from the spec: an Asana workspace as the listing code
sees it — server-assigned identifier, human-readable name, and the
`IsOrganization` attribute; the struct definition is outside `src/`.
The identifier is kept opaque as the string the `%s` verb prints. -/
structure Workspace where
  id : String
  name : String
  isOrg : Bool
  deriving Repr

/-- Modelled from the spec: an Asana project — identifier and name. -/
structure Project where
  id : String
  name : String
  deriving Repr

/-- Modelled from the spec: an Asana task — identifier and name. -/
structure Task where
  id : String
  name : String
  deriving Repr

/-- Modelled from the spec: an Asana section — identifier and name. -/
structure Section where
  id : String
  name : String
  deriving Repr

/-- The outcome of one "list children" call against the external
client: an error, or a page of results together with the opaque
continuation token for the next page. -/
def ListCall (α : Type) : Type := Except String (List α × String)

/-- One character under `fmt`'s `%q` verb (`strconv.Quote`): `"` and
`\` are backslash-escaped, printable characters are copied, the
standard short escapes cover `\a`…`\v`, and remaining ASCII control
characters use `\xHH`.  (Non-ASCII characters are copied verbatim;
Go would escape the non-printable ones, which never arise here.) -/
def quoteCh (c : Char) : List Char :=
  if c == '"' then ['\\', '"']
  else if c == '\\' then ['\\', '\\']
  else if c.toNat == 7 then ['\\', 'a']
  else if c.toNat == 8 then ['\\', 'b']
  else if c.toNat == 12 then ['\\', 'f']
  else if c == '\n' then ['\\', 'n']
  else if c == '\r' then ['\\', 'r']
  else if c == '\t' then ['\\', 't']
  else if c.toNat == 11 then ['\\', 'v']
  else if c.toNat < 32 || c.toNat == 127 then
    ['\\', 'x', Nat.digitChar (c.toNat / 16), Nat.digitChar (c.toNat % 16)]
  else [c]

/-- `fmt`'s `%q` verb on a string: the double-quoted form. -/
def goQuote (s : String) : String :=
  String.mk ('"' :: (s.data.map quoteCh).flatten ++ ['"'])

/-- The line `ListWorkspaces` prints for one workspace:
`Organization %s %q` when `IsOrganization` holds, else
`Workspace %s %q`. -/
def workspaceLine (w : Workspace) : String :=
  if w.isOrg then "Organization " ++ w.id ++ " " ++ goQuote w.name
  else "Workspace " ++ w.id ++ " " ++ goQuote w.name

/-- `util.ListWorkspaces`: one `c.Workspaces()` call; on error return
it with nothing printed, otherwise print one line per workspace and
return nil. -/
def ListWorkspaces (call : ListCall Workspace) : List String × Option String :=
  match call with
  | Except.error e => ([], some e)
  | Except.ok (workspaces, _nextPage) => (workspaces.map workspaceLine, none)

/-- The line `ListProjects` prints for one project: the format string
is `Project %s: %q` — note the colon after the identifier. -/
def projectLine (p : Project) : String :=
  "Project " ++ p.id ++ ": " ++ goQuote p.name

/-- `util.ListProjects`: one `w.Projects(client)` call; on error return
it with nothing printed, otherwise print one line per project. -/
def ListProjects (call : ListCall Project) : List String × Option String :=
  match call with
  | Except.error e => ([], some e)
  | Except.ok (projects, _nextPage) => (projects.map projectLine, none)

/-- The line `ListTasks` prints for one task: `Task %s %q`. -/
def taskLine (t : Task) : String :=
  "Task " ++ t.id ++ " " ++ goQuote t.name

/-- `util.ListTasks`: one `p.Tasks(client)` call; on error return it
with nothing printed, otherwise print one line per task. -/
def ListTasks (call : ListCall Task) : List String × Option String :=
  match call with
  | Except.error e => ([], some e)
  | Except.ok (tasks, _nextPage) => (tasks.map taskLine, none)

/-- The line `ListSections` prints for one section: `Section %s %q`. -/
def sectionLine (s : Section) : String :=
  "Section " ++ s.id ++ " " ++ goQuote s.name

/-- `util.ListSections`: one `p.Sections(client)` call; on error return
it with nothing printed, otherwise print one line per section. -/
def ListSections (call : ListCall Section) : List String × Option String :=
  match call with
  | Except.error e => ([], some e)
  | Except.ok (sections, _nextPage) => (sections.map sectionLine, none)

/-! ## The spec's textual pattern `YYYY-MM-DD`

These definitions follow the spec's words (four digits, dash, two
digits, dash, two digits, nothing else) and are compared against the
source-derived parser above. -/

/-- `true` iff `s` consists of exactly four ASCII digits, `-`, two
digits, `-`, two digits — the spec's "exact pattern `YYYY-MM-DD`". -/
def matchesYMD (s : String) : Bool :=
  match s.data with
  | [y1, y2, y3, y4, h1, m1, m2, h2, d1, d2] =>
    isDigitCh y1 && isDigitCh y2 && isDigitCh y3 && isDigitCh y4 && h1 == '-' &&
      isDigitCh m1 && isDigitCh m2 && h2 == '-' && isDigitCh d1 && isDigitCh d2
  | _ => false

/-- The spec's rendering of a nonnegative number as exactly `width`
zero-padded decimal digits: character `i` is the digit with place
value `10 ^ (width - 1 - i)`. -/
def specPadDigits (width n : Nat) : List Char :=
  (List.range width).map fun i => Nat.digitChar (n / 10 ^ (width - 1 - i) % 10)

/-- The spec's rendering of a calendar date through the literal
pattern `YYYY-MM-DD`: zero-padded four-digit year, two-digit month,
two-digit day. -/
def specYMDRender (year month day : Nat) : List Char :=
  specPadDigits 4 year ++ '-' :: specPadDigits 2 month ++ '-' :: specPadDigits 2 day

/-- A `Date` value denoting a valid calendar date representable in the
fixed pattern: a four-digit year, a real month, a day the month has,
and no time-of-day remainder (the layout represents none). -/
def ValidCalendarDate (d : Date) : Prop :=
  0 ≤ d.year ∧ d.year ≤ 9999 ∧ 1 ≤ d.month ∧ d.month ≤ 12 ∧
    1 ≤ d.day ∧ d.day ≤ daysIn d.month d.year.toNat ∧ d.todNanos = 0

/-! ## Digit and formatting lemmas -/

theorem isDigitCh_digitChar (k : Nat) (h : k < 10) : isDigitCh (Nat.digitChar k) = true := by
  interval_cases k <;> decide

theorem digitVal_digitChar (k : Nat) (h : k < 10) : digitVal (Nat.digitChar k) = k := by
  interval_cases k <;> decide

theorem jsonEscapeChar_digitChar (k : Nat) (h : k < 10) :
    jsonEscapeChar (Nat.digitChar k) = [Nat.digitChar k] := by
  interval_cases k <;> decide

theorem jsonEscapeChar_dash : jsonEscapeChar '-' = ['-'] := by decide

theorem goAppendInt_two (x : Int) (h0 : 0 ≤ x) (h : x < 100) :
    goAppendInt x 2 = [Nat.digitChar (x.natAbs / 10), Nat.digitChar (x.natAbs % 10)] := by
  have hneg : ¬ x < 0 := by omega
  have hu : x.natAbs < 100 := by omega
  simp [goAppendInt, hneg, hu]

theorem goAppendInt_four (x : Int) (h0 : 0 ≤ x) (h : x < 10000) :
    goAppendInt x 4 = [Nat.digitChar (x.natAbs / 1000), Nat.digitChar (x.natAbs / 100 % 10),
      Nat.digitChar (x.natAbs / 10 % 10), Nat.digitChar (x.natAbs % 10)] := by
  have hneg : ¬ x < 0 := by omega
  have hu : x.natAbs < 10000 := by omega
  simp [goAppendInt, hneg, hu]

theorem getnum_two (n : Nat) (h : n < 100) (rest : List Char) :
    getnumFixed 2 0 (Nat.digitChar (n / 10) :: Nat.digitChar (n % 10) :: rest)
      = some (n, rest) := by
  have h1 : n / 10 < 10 := by omega
  have h2 : n % 10 < 10 := by omega
  have e : n / 10 * 10 + n % 10 = n := by omega
  simp [getnumFixed, isDigitCh_digitChar _ h1, isDigitCh_digitChar _ h2,
    digitVal_digitChar _ h1, digitVal_digitChar _ h2, e]

theorem getnum_four (n : Nat) (h : n < 10000) (rest : List Char) :
    getnumFixed 4 0 (Nat.digitChar (n / 1000) :: Nat.digitChar (n / 100 % 10)
        :: Nat.digitChar (n / 10 % 10) :: Nat.digitChar (n % 10) :: rest)
      = some (n, rest) := by
  have h1 : n / 1000 < 10 := by omega
  have h2 : n / 100 % 10 < 10 := by omega
  have h3 : n / 10 % 10 < 10 := by omega
  have h4 : n % 10 < 10 := by omega
  have e : ((n / 1000 * 10 + n / 100 % 10) * 10 + n / 10 % 10) * 10 + n % 10 = n := by omega
  simp [getnumFixed, isDigitCh_digitChar _ h1, isDigitCh_digitChar _ h2,
    isDigitCh_digitChar _ h3, isDigitCh_digitChar _ h4,
    digitVal_digitChar _ h1, digitVal_digitChar _ h2,
    digitVal_digitChar _ h3, digitVal_digitChar _ h4, e]

/-- For a valid calendar date the formatted text is the four year
digits, a dash, the two month digits, a dash, the two day digits. -/
theorem dateFormat_explicit (d : Date) (hy0 : 0 ≤ d.year) (hy1 : d.year < 10000)
    (hm : d.month < 100) (hd : d.day < 100) :
    dateFormat d = Nat.digitChar (d.year.natAbs / 1000) :: Nat.digitChar (d.year.natAbs / 100 % 10)
      :: Nat.digitChar (d.year.natAbs / 10 % 10) :: Nat.digitChar (d.year.natAbs % 10)
      :: '-' :: Nat.digitChar (d.month / 10) :: Nat.digitChar (d.month % 10)
      :: '-' :: Nat.digitChar (d.day / 10) :: Nat.digitChar (d.day % 10) :: [] := by
  have hm' : ((d.month : Int)) < 100 := by omega
  have hd' : ((d.day : Int)) < 100 := by omega
  rw [dateFormat, goAppendInt_four d.year hy0 hy1,
    goAppendInt_two (d.month : Int) (by omega) hm',
    goAppendInt_two (d.day : Int) (by omega) hd']
  simp

/-- Every month length is at most 31. -/
theorem daysIn_le (m y : Nat) : daysIn m y ≤ 31 := by
  unfold daysIn; split_ifs <;> omega

/-- `json.Marshal` does not escape anything in a formatted date: the
marshalled bytes are the formatted text wrapped in double quotes. -/
theorem jsonMarshalString_dateFormat (d : Date) (hy0 : 0 ≤ d.year) (hy1 : d.year < 10000)
    (hm : d.month < 100) (hd : d.day < 100) :
    jsonMarshalString (dateFormat d) = '"' :: dateFormat d ++ ['"'] := by
  rw [jsonMarshalString, dateFormat_explicit d hy0 hy1 hm hd]
  simp [jsonEscapeChar_digitChar _ (show d.year.natAbs / 1000 < 10 by omega),
    jsonEscapeChar_digitChar _ (show d.year.natAbs / 100 % 10 < 10 by omega),
    jsonEscapeChar_digitChar _ (show d.year.natAbs / 10 % 10 < 10 by omega),
    jsonEscapeChar_digitChar _ (show d.year.natAbs % 10 < 10 by omega),
    jsonEscapeChar_digitChar _ (show d.month / 10 < 10 by omega),
    jsonEscapeChar_digitChar _ (show d.month % 10 < 10 by omega),
    jsonEscapeChar_digitChar _ (show d.day / 10 < 10 by omega),
    jsonEscapeChar_digitChar _ (show d.day % 10 < 10 by omega),
    jsonEscapeChar_dash]

/-- Parsing the formatted text of a valid calendar date recovers its
calendar fields, at midnight. -/
theorem timeParseDate_dateFormat (d : Date) (h : ValidCalendarDate d) :
    timeParseDate (String.mk (dateFormat d)) = Except.ok ⟨d.year, d.month, d.day, 0⟩ := by
  obtain ⟨hy0, hy1, hm0, hm1, hd0, hd1, _⟩ := h
  have habs : d.year.natAbs = d.year.toNat := by omega
  have hday100 : d.day < 100 := by have := daysIn_le d.month d.year.toNat; omega
  rw [dateFormat_explicit d hy0 (by omega) (by omega) (by omega)]
  have hmlo : ¬ d.month < 1 := by omega
  have hmhi : ¬ d.month > 12 := by omega
  have hdlo : ¬ d.day < 1 := by omega
  have hdhi : ¬ d.day > daysIn d.month d.year.natAbs := by rw [habs]; omega
  have hyy : (d.year.natAbs : Int) = d.year := by omega
  simp [timeParseDate, getnum_four d.year.natAbs (by omega),
    getnum_two d.month (by omega), getnum_two d.day (by omega),
    hmlo, hmhi, hdlo, hdhi, hyy]

/-- C1: for every valid calendar date `d`, `Date.MarshalJSON` produces
the double-quoted formatted text, and `Date.UnmarshalJSON` applied to
that JSON string (from any prior receiver state) recovers exactly `d`
with no error: the encode-then-decode round-trip law. -/
theorem c1_date_roundtrip (d d0 : Date) (h : ValidCalendarDate d) :
    dateMarshalJSON d = Except.ok ('"' :: dateFormat d ++ ['"']) ∧
    dateUnmarshalJSON d0 (JsonValue.str (String.mk (dateFormat d))) = (d, none) := by
  obtain ⟨hy0, hy1, hm0, hm1, hd0, hd1, ht⟩ := h
  have hday100 : d.day < 100 := by have := daysIn_le d.month d.year.toNat; omega
  constructor
  · rw [dateMarshalJSON,
      jsonMarshalString_dateFormat d hy0 (by omega) (by omega) (by omega)]
  · rw [dateUnmarshalJSON]
    simp only [jsonUnmarshalString,
      timeParseDate_dateFormat d ⟨hy0, hy1, hm0, hm1, hd0, hd1, ht⟩]
    obtain ⟨y, m, day, tod⟩ := d
    simp_all

/-- Witness for C1 at the spec's example date 2012-03-26. -/
theorem c1_date_roundtrip_witness :
    ValidCalendarDate ⟨2012, 3, 26, 0⟩ ∧
      dateMarshalJSON ⟨2012, 3, 26, 0⟩
          = Except.ok ('"' :: dateFormat ⟨2012, 3, 26, 0⟩ ++ ['"']) ∧
      dateUnmarshalJSON ⟨0, 0, 0, 0⟩
          (JsonValue.str (String.mk (dateFormat ⟨2012, 3, 26, 0⟩)))
        = (⟨2012, 3, 26, 0⟩, none) :=
  ⟨by constructor <;> decide, c1_date_roundtrip ⟨2012, 3, 26, 0⟩ ⟨0, 0, 0, 0⟩ (by constructor <;> decide)⟩

theorem specPadDigits_two (n : Nat) (h : n < 100) :
    specPadDigits 2 n = [Nat.digitChar (n / 10), Nat.digitChar (n % 10)] := by
  have hr : List.range 2 = [0, 1] := by decide
  have e1 : n / 10 % 10 = n / 10 := by omega
  simp [specPadDigits, hr, e1]

theorem specPadDigits_four (n : Nat) (h : n < 10000) :
    specPadDigits 4 n = [Nat.digitChar (n / 1000), Nat.digitChar (n / 100 % 10),
      Nat.digitChar (n / 10 % 10), Nat.digitChar (n % 10)] := by
  have hr : List.range 4 = [0, 1, 2, 3] := by decide
  have e1 : n / 1000 % 10 = n / 1000 := by omega
  simp [specPadDigits, hr, e1]

/-- C8: for every `Date` in the representable range, `Date.MarshalJSON`
produces exactly the JSON string whose content is the date rendered
through the literal pattern `YYYY-MM-DD` — zero-padded four-digit year,
two-digit month, two-digit day — and nothing else. -/
theorem c8_marshal_pattern (d : Date) (hy0 : 0 ≤ d.year) (hy1 : d.year ≤ 9999)
    (hm : d.month < 100) (hd : d.day < 100) :
    dateMarshalJSON d = Except.ok ('"' :: specYMDRender d.year.toNat d.month d.day ++ ['"']) := by
  have habs : d.year.natAbs = d.year.toNat := by omega
  have hfmt : specYMDRender d.year.toNat d.month d.day = dateFormat d := by
    rw [specYMDRender, specPadDigits_four d.year.toNat (by omega),
      specPadDigits_two d.month hm, specPadDigits_two d.day hd,
      dateFormat_explicit d hy0 (by omega) hm hd, habs]
    simp
  rw [dateMarshalJSON, hfmt,
    jsonMarshalString_dateFormat d hy0 (by omega) hm hd]

/-- Witness for C8 at the spec's example: encoding 2012-03-26 yields
the JSON text `"2012-03-26"`. -/
theorem c8_marshal_pattern_witness :
    dateMarshalJSON ⟨2012, 3, 26, 0⟩ = Except.ok ("\"2012-03-26\"".data) := by
  have h := c8_marshal_pattern ⟨2012, 3, 26, 0⟩ (by decide) (by decide) (by decide) (by decide)
  rw [h]
  exact congrArg Except.ok (by decide)

/-- C9: `Date.MarshalJSON` is total — for every `Date` value, also the
zero value and extreme years, encoding succeeds and no error is
returned (`time.Time.Format` is total and `json.Marshal` of a `string`
cannot fail). -/
theorem c9_marshal_total (d : Date) : ∃ bytes, dateMarshalJSON d = Except.ok bytes :=
  ⟨jsonMarshalString (dateFormat d), rfl⟩

/-- C10: `Date.UnmarshalJSON` is atomic on failure — whenever it
returns an error, the receiver is exactly the prior value, because the
assignment happens only after the JSON string unmarshalling and the
date parse have both succeeded. -/
theorem c10_unmarshal_atomic (d : Date) (v : JsonValue)
    (h : (dateUnmarshalJSON d v).2.isSome = true) : (dateUnmarshalJSON d v).1 = d := by
  rw [dateUnmarshalJSON] at *
  cases hju : jsonUnmarshalString v with
  | error e => simp [hju]
  | ok s =>
    cases htp : timeParseDate s with
    | error e => simp [hju, htp]
    | ok t => simp [hju, htp] at h

/-- Witness for C10: a failing decode (a JSON number) leaves the
receiver untouched. -/
theorem c10_unmarshal_atomic_witness :
    (dateUnmarshalJSON ⟨1, 2, 3, 4⟩ (JsonValue.num 5)).2.isSome = true ∧
      (dateUnmarshalJSON ⟨1, 2, 3, 4⟩ (JsonValue.num 5)).1 = ⟨1, 2, 3, 4⟩ :=
  ⟨rfl, c10_unmarshal_atomic ⟨1, 2, 3, 4⟩ (JsonValue.num 5) rfl⟩

/-- A successful two-digit read consumed exactly two digit
characters. -/
theorem getnumFixed_two_shape (acc v : Nat) (cs rest : List Char)
    (h : getnumFixed 2 acc cs = some (v, rest)) :
    ∃ a b, cs = a :: b :: rest ∧ isDigitCh a = true ∧ isDigitCh b = true := by
  cases cs with
  | nil => simp [getnumFixed] at h
  | cons a cs1 =>
    by_cases ha : isDigitCh a
    · simp only [getnumFixed, ha, if_true] at h
      cases cs1 with
      | nil => simp [getnumFixed] at h
      | cons b cs2 =>
        by_cases hb : isDigitCh b
        · simp only [getnumFixed, hb, if_true] at h
          simp only [getnumFixed, Option.some.injEq, Prod.mk.injEq] at h
          exact ⟨a, b, by rw [h.2], ha, hb⟩
        · simp [getnumFixed, hb] at h
    · simp [getnumFixed, ha] at h

/-- A successful four-digit read consumed exactly four digit
characters. -/
theorem getnumFixed_four_shape (acc v : Nat) (cs rest : List Char)
    (h : getnumFixed 4 acc cs = some (v, rest)) :
    ∃ a b c d, cs = a :: b :: c :: d :: rest ∧ isDigitCh a = true ∧ isDigitCh b = true ∧
      isDigitCh c = true ∧ isDigitCh d = true := by
  cases cs with
  | nil => simp [getnumFixed] at h
  | cons a cs1 =>
    by_cases ha : isDigitCh a
    · simp only [getnumFixed, ha, if_true] at h
      cases cs1 with
      | nil => simp [getnumFixed] at h
      | cons b cs2 =>
        by_cases hb : isDigitCh b
        · simp only [getnumFixed, hb, if_true] at h
          obtain ⟨c, d, hcs, hc, hd⟩ := getnumFixed_two_shape _ _ _ _ h
          exact ⟨a, b, c, d, by rw [hcs], ha, hb, hc, hd⟩
        · simp [getnumFixed, hb] at h
    · simp [getnumFixed, ha] at h

/-- If `time.Parse "2006-01-02"` succeeds on `s`, then `s` matches the
exact textual pattern `YYYY-MM-DD`. -/
theorem timeParseDate_shape (s : String) (t : Date)
    (h : timeParseDate s = Except.ok t) : matchesYMD s = true := by
  rw [timeParseDate] at h
  split at h
  any_goals exact Except.noConfusion h
  split at h
  any_goals exact Except.noConfusion h
  split at h
  any_goals exact Except.noConfusion h
  split at h
  any_goals exact Except.noConfusion h
  split at h
  any_goals exact Except.noConfusion h
  split at h
  any_goals exact Except.noConfusion h
  split at h
  any_goals exact Except.noConfusion h
  split at h
  any_goals exact Except.noConfusion h
  rename_i year yT0 yTail eq4 o2 month mT0 mTail eq2 o3 day dTail eq3 h5 hmr hdr
  obtain ⟨a, b, c, d, hcs4, ha, hb, hc, hd⟩ := getnumFixed_four_shape _ _ _ _ eq4
  obtain ⟨e, f, hcs2, he, hf⟩ := getnumFixed_two_shape _ _ _ _ eq2
  obtain ⟨g, k, hcs3, hg, hk⟩ := getnumFixed_two_shape _ _ _ _ eq3
  have h5' : dTail = [] := by simpa using h5
  rw [matchesYMD, hcs4, hcs2, hcs3, h5']
  simp [ha, hb, hc, hd, he, hf, hg, hk]

/-- C2: `Date.UnmarshalJSON` returns a decode error on every JSON
value that is not a string, and on every JSON string whose content
does not match the exact pattern `YYYY-MM-DD`. -/
theorem c2_unmarshal_rejects_nonmatching (d0 : Date) (v : JsonValue)
    (h : ∀ s, v = JsonValue.str s → matchesYMD s = false) :
    ((dateUnmarshalJSON d0 v).2.isSome) = true := by
  cases v with
  | str s =>
    have hs := h s rfl
    cases htp : timeParseDate s with
    | error e => simp [dateUnmarshalJSON, jsonUnmarshalString, htp]
    | ok t => exact absurd (timeParseDate_shape s t htp) (by simp [hs])
  | num n => rfl
  | bool b => rfl
  | null => rfl
  | arr es => rfl
  | obj fs => rfl

/-- Witness for C2 at the spec's three non-matching strings and one
non-string JSON value. -/
theorem c2_unmarshal_rejects_nonmatching_witness :
    ((dateUnmarshalJSON ⟨0, 0, 0, 0⟩ (JsonValue.str "03/26/2012")).2.isSome) = true ∧
      ((dateUnmarshalJSON ⟨0, 0, 0, 0⟩ (JsonValue.str "2012-3-26")).2.isSome) = true ∧
      ((dateUnmarshalJSON ⟨0, 0, 0, 0⟩ (JsonValue.str "2012-03-26T00:00:00")).2.isSome) = true ∧
      ((dateUnmarshalJSON ⟨0, 0, 0, 0⟩ (JsonValue.num 5)).2.isSome) = true :=
  ⟨c2_unmarshal_rejects_nonmatching ⟨0, 0, 0, 0⟩ (JsonValue.str "03/26/2012")
      (by intro s hs; injection hs with hs; subst hs; decide),
    c2_unmarshal_rejects_nonmatching ⟨0, 0, 0, 0⟩ (JsonValue.str "2012-3-26")
      (by intro s hs; injection hs with hs; subst hs; decide),
    c2_unmarshal_rejects_nonmatching ⟨0, 0, 0, 0⟩ (JsonValue.str "2012-03-26T00:00:00")
      (by intro s hs; injection hs with hs; subst hs; decide),
    c2_unmarshal_rejects_nonmatching ⟨0, 0, 0, 0⟩ (JsonValue.num 5)
      (by intro s hs; cases hs)⟩

/-- C3: on a successful call, `ListWorkspaces` prints exactly one line
per returned workspace, in input order, labelled `Organization` when
`IsOrganization` is set and `Workspace` otherwise, and returns no
error. -/
theorem c3_list_workspaces (workspaces : List Workspace) (tok : String) :
    ListWorkspaces (Except.ok (workspaces, tok)) =
      (workspaces.map fun w =>
        (if w.isOrg then "Organization" else "Workspace") ++ " " ++ w.id ++ " " ++ goQuote w.name,
       none) := by
  rw [ListWorkspaces]
  refine congrArg (fun l => (l, none)) (List.map_congr_left fun w _ => ?_)
  cases hw : w.isOrg <;> simp [workspaceLine, hw]

/-- C4: each of the four listing helpers propagates a failing list
call's error unchanged and prints nothing. -/
theorem c4_error_propagation (e : String) :
    ListWorkspaces (Except.error e) = ([], some e) ∧
      ListProjects (Except.error e) = ([], some e) ∧
      ListTasks (Except.error e) = ([], some e) ∧
      ListSections (Except.error e) = ([], some e) :=
  ⟨rfl, rfl, rfl, rfl⟩

/-- C5: a successful list call with zero results makes the listing
helper print no lines and return no error (shown for all four
helpers, in particular `ListTasks`). -/
theorem c5_empty_page (tok : String) :
    ListTasks (Except.ok ([], tok)) = ([], none) ∧
      ListWorkspaces (Except.ok ([], tok)) = ([], none) ∧
      ListProjects (Except.ok ([], tok)) = ([], none) ∧
      ListSections (Except.ok ([], tok)) = ([], none) :=
  ⟨rfl, rfl, rfl, rfl⟩

/-- C6: each helper consumes the outcome of its single list call only:
the continuation token has no effect on the behaviour, and the printed
lines are exactly one line per result of that single call — later
pages are never fetched or printed. -/
theorem c6_single_page (ws : List Workspace) (ps : List Project) (ts : List Task)
    (ss : List Section) (tok tok' : String) :
    (ListWorkspaces (Except.ok (ws, tok)) = ListWorkspaces (Except.ok (ws, tok')) ∧
        (ListWorkspaces (Except.ok (ws, tok))).1 = ws.map workspaceLine) ∧
      (ListProjects (Except.ok (ps, tok)) = ListProjects (Except.ok (ps, tok')) ∧
        (ListProjects (Except.ok (ps, tok))).1 = ps.map projectLine) ∧
      (ListTasks (Except.ok (ts, tok)) = ListTasks (Except.ok (ts, tok')) ∧
        (ListTasks (Except.ok (ts, tok))).1 = ts.map taskLine) ∧
      (ListSections (Except.ok (ss, tok)) = ListSections (Except.ok (ss, tok')) ∧
        (ListSections (Except.ok (ss, tok))).1 = ss.map sectionLine) :=
  ⟨⟨rfl, rfl⟩, ⟨rfl, rfl⟩, ⟨rfl, rfl⟩, ⟨rfl, rfl⟩⟩

/-- C7 counterexample: the claim that every printed line has the format
`<TypeLabel> <ID> <Quoted Name>` fails for `ListProjects`, whose format
string puts a colon after the identifier. -/
theorem c7_counterexample :
    (ListProjects (Except.ok ([⟨"1", "a"⟩], ""))).1 = ["Project 1: \"a\""] ∧
      ¬ (ListProjects (Except.ok ([⟨"1", "a"⟩], ""))).1
          = ["Project" ++ " " ++ "1" ++ " " ++ goQuote "a"] :=
  ⟨rfl, by decide⟩

/-- C7 amended: lines printed by `ListWorkspaces`, `ListTasks` and
`ListSections` have the format `<TypeLabel> <ID> <Quoted Name>`, while
`ListProjects` prints `Project <ID>: <Quoted Name>`, with a colon
between the identifier and the quoted name. -/
theorem c7_line_formats (ws : List Workspace) (ps : List Project) (ts : List Task)
    (ss : List Section) (tok : String) :
    (ListWorkspaces (Except.ok (ws, tok))).1 =
        ws.map (fun w =>
          (if w.isOrg then "Organization" else "Workspace") ++ " " ++ w.id ++ " " ++ goQuote w.name) ∧
      (ListProjects (Except.ok (ps, tok))).1 =
        ps.map (fun p => "Project " ++ p.id ++ ": " ++ goQuote p.name) ∧
      (ListTasks (Except.ok (ts, tok))).1 =
        ts.map (fun t => "Task " ++ t.id ++ " " ++ goQuote t.name) ∧
      (ListSections (Except.ok (ss, tok))).1 =
        ss.map (fun s => "Section " ++ s.id ++ " " ++ goQuote s.name) := by
  refine ⟨?_, rfl, rfl, rfl⟩
  rw [ListWorkspaces]
  refine List.map_congr_left fun w _ => ?_
  cases hw : w.isOrg <;> simp [workspaceLine, hw]

end AsanaGo
